import Mathlib

/-!
Verification of the BIM parser (`src/parsers/bim-parser.js`) of
`powerbi-tom-parser`.

The source is JavaScript operating on the dynamic value tree produced by
`JSON.parse`.  We embed that tree as the inductive type `JValue` and translate
each source function line by line.  JavaScript exceptions (`TypeError` on
property access of `null`, `RangeError` from `Buffer.swap16`, the library's own
`TomParserError`, ...) are modelled with `Except JsErr`.  JSON numbers are
modelled as integers; the claims under study only distinguish the falsy number
`0`, on which this model agrees with the ECMAScript semantics.
-/

/-- A JSON value as produced by `JSON.parse`: `null`, booleans, numbers,
strings, arrays and objects.  Objects keep their fields in insertion order;
`JSON.parse` yields the last occurrence for duplicated keys, which `objGet`
below reproduces. -/
inductive JValue where
  | jnull
  | jbool (b : Bool)
  | jnum (n : Int)
  | jstr (s : String)
  | jarr (elems : List JValue)
  | jobj (fields : List (String × JValue))

/-- Own-property lookup on an object's field list; a later duplicate key
overwrites an earlier one, as in `JSON.parse`. -/
def objGet (fields : List (String × JValue)) (k : String) : Option JValue :=
  fields.foldl (fun acc p => if p.1 = k then some p.2 else acc) none

/-- ECMAScript truthiness of a `JValue`: `null`, `false`, `0` and `""` are
falsy, everything else (including empty arrays and objects) is truthy. -/
def truthyJ : JValue → Bool
  | .jnull => false
  | .jbool b => b
  | .jnum n => n != 0
  | .jstr s => s != ""
  | .jarr _ => true
  | .jobj _ => true

/-- Truthiness of a property-access result; `none` models `undefined`. -/
def truthyO : Option JValue → Bool
  | none => false
  | some v => truthyJ v

/-- Property access `v.k` for a non-`null` value: own-key lookup on objects,
`undefined` (`none`) on any other value.  The parser only accesses fixed keys
(`name`, `model`, `isHidden`, ...) none of which exists on
`Object.prototype`, so own-key lookup coincides with the JavaScript lookup.
Access on `null` throws and is handled by `getPropE`. -/
def getProp (v : JValue) (k : String) : Option JValue :=
  match v with
  | .jobj fields => objGet fields k
  | _ => none

/-- The failure values the parser can raise or observe.  `tomError` is the
library's `TomParserError` (a `code`, a message and an optional chained
`cause`); `fsError` is a Node.js filesystem error carrying its `code`
property; the remaining constructors are the host `TypeError`, `RangeError`
and `SyntaxError`. -/
inductive JsErr where
  | tomError (code : String) (msg : String) (cause : Option JsErr)
  | typeError (msg : String)
  | rangeError (msg : String)
  | fsError (code : String) (msg : String)
  | syntaxError (msg : String)

namespace JsErr

/-- `error instanceof TomParserError`. -/
def isTom : JsErr → Bool
  | .tomError _ _ _ => true
  | _ => false

/-- `error instanceof SyntaxError`. -/
def isSyntax : JsErr → Bool
  | .syntaxError _ => true
  | _ => false

/-- The `code` property of the error: present on `TomParserError` and on
Node.js filesystem errors, `undefined` on the host error classes. -/
def code? : JsErr → Option String
  | .tomError c _ _ => some c
  | .fsError c _ => some c
  | _ => none

/-- The `message` property of the error. -/
def message : JsErr → String
  | .tomError _ m _ => m
  | .typeError m => m
  | .rangeError m => m
  | .fsError _ m => m
  | .syntaxError m => m

end JsErr

/-- Property access `v.k` with the JavaScript exception behaviour: reading a
property of `null` throws a `TypeError`. -/
def getPropE (v : JValue) (k : String) : Except JsErr (Option JValue) :=
  match v with
  | .jnull => .error (.typeError ("Cannot read properties of null (reading " ++ k ++ ")"))
  | .jobj fields => .ok (objGet fields k)
  | _ => .ok none

/-- The nullish-coalescing operator `x ?? d`: the default replaces `null` and
`undefined` only. -/
def jsCoalesce (x : Option JValue) (d : JValue) : JValue :=
  match x with
  | none => d
  | some .jnull => d
  | some v => v

/-- Optional chaining `x?.k`: `undefined` if `x` is nullish, otherwise the
property access (total, because `x` is then not `null`). -/
def optChain (x : Option JValue) (k : String) : Option JValue :=
  match x with
  | none => none
  | some .jnull => none
  | some v => getProp v k

/-- The `DataType` enum of `src/types/index.js`. -/
inductive DataType where
  | Int64
  | Double
  | Boolean
  | String
  | DateTime
  | Decimal
  | Binary
  | Table
  | Variant
  | Unknown
deriving DecidableEq, Repr

/-- The `PartitionSourceType` enum of `src/types/index.js`. -/
inductive PartitionSourceType where
  | Query
  | M
  | Calculated
  | None
deriving DecidableEq, Repr

/-- The `DataView` enum of `src/types/index.js`. -/
inductive DataView where
  | Full
  | Sample
deriving DecidableEq, Repr

/-- The `RelationshipCardinality` enum of `src/types/index.js`. -/
inductive RelationshipCardinality where
  | OneToOne
  | OneToMany
  | ManyToOne
deriving DecidableEq, Repr

/-- The `CrossFilteringBehavior` enum of `src/types/index.js`. -/
inductive CrossFilteringBehavior where
  | BothDirections
  | OneDirection
  | None
deriving DecidableEq, Repr

mutual

/-- A computable size of a JSON value, used only to bound the recursion depth
of the ECMAScript `ToString` coercion below. -/
def jvSize : JValue → Nat
  | .jnull => 1
  | .jbool _ => 1
  | .jnum _ => 1
  | .jstr _ => 1
  | .jarr es => 1 + jvSizeList es
  | .jobj fs => 1 + jvSizeFields fs

def jvSizeList : List JValue → Nat
  | [] => 0
  | v :: rest => 1 + jvSize v + jvSizeList rest

def jvSizeFields : List (String × JValue) → Nat
  | [] => 0
  | p :: rest => 1 + jvSize p.2 + jvSizeFields rest

end

/-- ECMAScript `ToString` on a JSON value, fuelled so the recursion through
nested arrays (`Array.prototype.toString` joins the coerced elements with
commas, rendering `null` elements as the empty string) is structural.  The
fuel only has to bound the array-nesting depth. -/
def jsToStringFuel : JValue → Nat → String
  | .jnull, _ => "null"
  | .jbool b, _ => cond b "true" "false"
  | .jnum n, _ => toString n
  | .jstr s, _ => s
  | .jobj _, _ => "[object Object]"
  | .jarr _, 0 => ""
  | .jarr es, fuel + 1 =>
      String.intercalate "," (es.map fun e =>
        match e with
        | .jnull => ""
        | v => jsToStringFuel v fuel)

/-- ECMAScript `ToString`, used when a `JValue` is coerced to a property key.
`jvSize` always exceeds the array-nesting depth, so the fuel never runs
out. -/
def jsToString (v : JValue) : String :=
  jsToStringFuel v (jvSize v)

/-- The own keys of the `typeMap` object literal in `mapDataType`
(`src/parsers/bim-parser.js` lines 212-225). -/
def typeMapOwn : String → Option DataType
  | "Int64" => some .Int64
  | "Int32" => some .Int64
  | "Double" => some .Double
  | "Single" => some .Double
  | "Boolean" => some .Boolean
  | "String" => some .String
  | "DateTime" => some .DateTime
  | "DateTimeOffset" => some .DateTime
  | "Decimal" => some .Decimal
  | "Binary" => some .Binary
  | "Table" => some .Table
  | "Variant" => some .Variant
  | _ => none

/-- The own property names of `Object.prototype`.  The `typeMap` object
literal inherits from `Object.prototype`, so indexing it with one of these
names yields the inherited member (a function, or the prototype object for
the `__proto__` accessor), which is not nullish and therefore survives the
`?? DataType.Unknown` fallback. -/
def objectPrototypeProps : List String :=
  ["constructor", "hasOwnProperty", "isPrototypeOf", "propertyIsEnumerable",
   "toLocaleString", "toString", "valueOf", "__defineGetter__",
   "__defineSetter__", "__lookupGetter__", "__lookupSetter__", "__proto__"]

/-- The runtime result of the `typeMap[dataType] ?? DataType.Unknown` lookup:
either a proper enum member, or a value inherited from `Object.prototype`
when the raw token names one of its properties. -/
inductive MapDataTypeResult where
  | enum (d : DataType)
  | inherited (key : String)
deriving DecidableEq, Repr

/-- `mapDataType` (`src/parsers/bim-parser.js` lines 208-227): falsy input
(absent, empty string, ...) maps to `Unknown`; otherwise the input is coerced
to a property key and looked up in the `typeMap` object literal, which
includes the prototype chain. -/
def mapDataType (dataType : Option JValue) : MapDataTypeResult :=
  if truthyO dataType then
    let key := jsToString (dataType.getD .jnull)
    match typeMapOwn key with
    | some d => .enum d
    | none =>
        if objectPrototypeProps.contains key then .inherited key
        else .enum .Unknown
  else .enum .Unknown

/-- `mapPartitionSourceType` (`src/parsers/bim-parser.js` lines 228-242).
The checks on `source.expression` and `source.query` are truthiness checks;
`source.type === 'm'` is a strict string comparison. -/
def mapPartitionSourceType (source : Option JValue) : PartitionSourceType :=
  if truthyO source then
    match getProp (source.getD .jnull) "type" with
    | some (.jstr "m") => .M
    | _ =>
        if truthyO (getProp (source.getD .jnull) "expression") then .Calculated
        else if truthyO (getProp (source.getD .jnull) "query") then .Query
        else .None
  else .None

/-- `mapCardinality` (`src/parsers/bim-parser.js` lines 243-254).  The first
parameter (`crossFilterDirection`) is unused in the source. -/
def mapCardinality (crossFilterDirection fromCard toCard : Option JValue) :
    RelationshipCardinality :=
  match fromCard, toCard with
  | some (.jstr "1"), some (.jstr "1") => .OneToOne
  | some (.jstr "1"), some (.jstr "*") => .OneToMany
  | some (.jstr "*"), some (.jstr "1") => .ManyToOne
  | _, _ => .OneToMany

/-- `mapCrossFilteringBehavior` (`src/parsers/bim-parser.js` lines 255-263). -/
def mapCrossFilteringBehavior (crossFilterDirection : Option JValue) :
    CrossFilteringBehavior :=
  match crossFilterDirection with
  | some (.jstr "Both") => .BothDirections
  | some (.jstr "OneDirection") => .OneDirection
  | _ => .None

/-- An annotation record (`{name, value}`), both fields defaulted to the
empty string by `parseAnnotations`. -/
structure AnnotationEntry where
  name : JValue
  value : JValue

/-- A culture record.  `name` is copied verbatim (possibly `undefined`);
the annotation list is `undefined` when annotation inclusion is off. -/
structure Culture where
  name : Option JValue
  annotations : Option (List AnnotationEntry)

/-- The `DataModelSchema` record produced by `parseDataModelSchema`. -/
structure DataModelSchema where
  name : JValue
  compatibilityLevel : JValue
  cultures : List Culture
  annotations : List AnnotationEntry

/-- The `Column` record produced by `parseColumn`.  Fields that the source
assigns only under a truthiness check are `none` when the check fails;
`isHidden` and `description` are always assigned (possibly `undefined`). -/
structure Column where
  name : JValue
  dataType : MapDataTypeResult
  isHidden : Option JValue
  description : Option JValue
  expression : Option JValue
  formatString : Option JValue
  summarization : Option JValue

/-- The `Partition` record produced by `parsePartition`. -/
structure Partition where
  name : JValue
  sourceType : PartitionSourceType
  description : Option JValue
  expression : Option JValue
  query : Option JValue
  dataView : Option DataView

/-- The `Measure` record produced by `parseMeasure`. -/
structure Measure where
  name : JValue
  expression : JValue
  formatString : Option JValue
  displayFolder : Option JValue
  isHidden : Option JValue
  description : Option JValue

/-- The `Table` record produced by `parseTable`. -/
structure Table where
  name : JValue
  description : Option JValue
  isHidden : Option JValue
  columns : List Column
  partitions : List Partition
  measures : List Measure

/-- The `Relationship` record produced by `parseRelationship`. -/
structure Relationship where
  name : Option JValue
  fromTable : JValue
  toTable : JValue
  fromColumn : JValue
  toColumn : JValue
  cardinality : RelationshipCardinality
  crossFilteringBehavior : CrossFilteringBehavior
  isActive : JValue
  isReferentialIntegrityEnforced : Option JValue

/-- The root `TabularModel` aggregate. -/
structure TabularModel where
  model : DataModelSchema
  tables : List Table
  relationships : List Relationship

/-- `ParseOptions`; absent fields fall back to `true` via `??`. -/
structure ParseOptions where
  includeAnnotations : Option Bool := none
  includeHiddenObjects : Option Bool := none

/-- `Array.prototype.map` with a callback that can throw: the elements are
visited left to right and the first exception aborts the traversal. -/
def jsMapE {α β : Type} (f : α → Except JsErr β) : List α → Except JsErr (List β)
  | [] => pure []
  | x :: xs => do
      let y ← f x
      let ys ← jsMapE f xs
      pure (y :: ys)

/-- `Array.prototype.filter` with a predicate that can throw; order
preserving, left to right, first exception aborts. -/
def jsFilterE (p : JValue → Except JsErr Bool) : List JValue → Except JsErr (List JValue)
  | [] => pure []
  | x :: xs => do
      let b ← p x
      let rest ← jsFilterE p xs
      pure (if b then x :: rest else rest)

/-- The hidden-object filter callback `(t) => !t.isHidden || includeHidden`
used for tables, columns and measures.  Reading `isHidden` off a `null`
element throws. -/
def hiddenPred (includeHidden : Bool) (v : JValue) : Except JsErr Bool := do
  let h ← getPropE v "isHidden"
  pure (!truthyO h || includeHidden)

/-- `parseAnnotations` (`src/parsers/bim-parser.js` lines 199-207): a
non-array (including `undefined`) becomes the empty list; each element's
`name` and `value` default to the empty string. -/
def parseAnnotations (annotationsJson : Option JValue) : Except JsErr (List AnnotationEntry) :=
  match annotationsJson with
  | some (.jarr as) =>
      jsMapE (fun a => do
        let n ← getPropE a "name"
        let v ← getPropE a "value"
        pure { name := jsCoalesce n (.jstr ""), value := jsCoalesce v (.jstr "") : AnnotationEntry }) as
  | _ => pure []

/-- `parseDataModelSchema` (`src/parsers/bim-parser.js` lines 66-83).
`name` defaults to `"Model"`, `compatibilityLevel` to `0`; cultures are
parsed only when `cultures` is an array (arrays are always truthy, so the
source's `modelJson.cultures && Array.isArray(modelJson.cultures)` collapses
to the array test); top-level annotations are parsed only when truthy and
annotation inclusion is on. -/
def parseDataModelSchema (modelJson : JValue) (includeAnnotations : Bool) :
    Except JsErr DataModelSchema := do
  let n ← getPropE modelJson "name"
  let compat ← getPropE modelJson "compatibilityLevel"
  let culturesRaw ← getPropE modelJson "cultures"
  let cultures ←
    match culturesRaw with
    | some (.jarr cs) =>
        jsMapE (fun c => do
          let cn ← getPropE c "name"
          if includeAnnotations then do
            let ca ← getPropE c "annotations"
            let anns ← parseAnnotations ca
            pure { name := cn, annotations := some anns : Culture }
          else
            pure { name := cn, annotations := none : Culture }) cs
    | _ => pure []
  let annsRaw ← getPropE modelJson "annotations"
  let anns ←
    if truthyO annsRaw && includeAnnotations then parseAnnotations annsRaw
    else pure []
  pure { name := jsCoalesce n (.jstr "Model"),
         compatibilityLevel := jsCoalesce compat (.jnum 0),
         cultures := cultures, annotations := anns }

/-- `parseColumn` (`src/parsers/bim-parser.js` lines 110-130).  The
expression falls back from a truthy `expression` field to a truthy
`calculatedColumn?.expression`; `formatString` and `summarization` are only
stored when truthy. -/
def parseColumn (colJson : JValue) : Except JsErr Column := do
  let n ← getPropE colJson "name"
  let dt ← getPropE colJson "dataType"
  let hid ← getPropE colJson "isHidden"
  let desc ← getPropE colJson "description"
  let expr ← getPropE colJson "expression"
  let calcCol ← getPropE colJson "calculatedColumn"
  let ce := optChain calcCol "expression"
  let fs ← getPropE colJson "formatString"
  let sb ← getPropE colJson "summarizeBy"
  pure { name := jsCoalesce n (.jstr "Column"),
         dataType := mapDataType dt,
         isHidden := hid,
         description := desc,
         expression := if truthyO expr then expr else if truthyO ce then ce else none,
         formatString := if truthyO fs then fs else none,
         summarization := if truthyO sb then sb else none }

/-- `parseColumns` (`src/parsers/bim-parser.js` lines 102-109): non-arrays
become the empty list; otherwise hidden-filter, then map `parseColumn`. -/
def parseColumns (columnsJson : JValue) (includeHidden : Bool) :
    Except JsErr (List Column) :=
  match columnsJson with
  | .jarr cs => do
      let kept ← jsFilterE (hiddenPred includeHidden) cs
      jsMapE parseColumn kept
  | _ => pure []

/-- `parsePartition` (`src/parsers/bim-parser.js` lines 137-155). -/
def parsePartition (partitionJson : JValue) : Except JsErr Partition := do
  let n ← getPropE partitionJson "name"
  let src ← getPropE partitionJson "source"
  let desc ← getPropE partitionJson "description"
  let base : Partition :=
    { name := jsCoalesce n (.jstr "Partition"),
      sourceType := mapPartitionSourceType src,
      description := desc, expression := none, query := none, dataView := none }
  if truthyO src then
    let s := src.getD .jnull
    let e := getProp s "expression"
    let q := getProp s "query"
    let dv := getProp s "dataView"
    pure { base with
           expression := if truthyO e then e else none,
           query := if truthyO q then q else none,
           dataView :=
             if truthyO dv then
               some (match dv with
                     | some (.jstr "Sample") => DataView.Sample
                     | _ => DataView.Full)
             else none }
  else
    pure base

/-- `parsePartitions` (`src/parsers/bim-parser.js` lines 131-136): non-arrays
become the empty list; otherwise every element is mapped, with no hidden
filtering. -/
def parsePartitions (partitionsJson : JValue) : Except JsErr (List Partition) :=
  match partitionsJson with
  | .jarr ps => jsMapE parsePartition ps
  | _ => pure []

/-- `parseMeasure` (`src/parsers/bim-parser.js` lines 164-173): `name`
defaults to `"Measure"`, `expression` to the empty string; the remaining
fields are copied verbatim. -/
def parseMeasure (measureJson : JValue) : Except JsErr Measure := do
  let n ← getPropE measureJson "name"
  let e ← getPropE measureJson "expression"
  let fs ← getPropE measureJson "formatString"
  let df ← getPropE measureJson "displayFolder"
  let hid ← getPropE measureJson "isHidden"
  let desc ← getPropE measureJson "description"
  pure { name := jsCoalesce n (.jstr "Measure"),
         expression := jsCoalesce e (.jstr ""),
         formatString := fs, displayFolder := df, isHidden := hid,
         description := desc }

/-- `parseMeasures` (`src/parsers/bim-parser.js` lines 156-163). -/
def parseMeasures (measuresJson : JValue) (includeHidden : Bool) :
    Except JsErr (List Measure) :=
  match measuresJson with
  | .jarr ms => do
      let kept ← jsFilterE (hiddenPred includeHidden) ms
      jsMapE parseMeasure kept
  | _ => pure []

/-- `parseTable` (`src/parsers/bim-parser.js` lines 92-101): `name` defaults
to `"Table"`; the child collections default to `[]` under `??` before being
normalized. -/
def parseTable (tableJson : JValue) (includeHidden : Bool) : Except JsErr Table := do
  let n ← getPropE tableJson "name"
  let desc ← getPropE tableJson "description"
  let hid ← getPropE tableJson "isHidden"
  let colsRaw ← getPropE tableJson "columns"
  let cols ← parseColumns (jsCoalesce colsRaw (.jarr [])) includeHidden
  let partsRaw ← getPropE tableJson "partitions"
  let parts ← parsePartitions (jsCoalesce partsRaw (.jarr []))
  let measRaw ← getPropE tableJson "measures"
  let meas ← parseMeasures (jsCoalesce measRaw (.jarr [])) includeHidden
  pure { name := jsCoalesce n (.jstr "Table"), description := desc,
         isHidden := hid, columns := cols, partitions := parts,
         measures := meas }

/-- `parseTables` (`src/parsers/bim-parser.js` lines 84-91): non-arrays
become the empty list; otherwise hidden-filter first, then map
`parseTable`. -/
def parseTables (tablesJson : JValue) (includeHidden : Bool) :
    Except JsErr (List Table) :=
  match tablesJson with
  | .jarr ts => do
      let kept ← jsFilterE (hiddenPred includeHidden) ts
      jsMapE (fun t => parseTable t includeHidden) kept
  | _ => pure []

/-- `String.prototype.toLowerCase`, modelled with `Char.toLower` (they agree
on the ASCII range); calling it on a non-string value throws a
`TypeError`. -/
def jsToLowerCase : JValue → Except JsErr String
  | .jstr s => pure (s.map Char.toLower)
  | _ => .error (.typeError "toLowerCase is not a function")

/-- The lower-cased key of a (string) table name; used only to state
properties of the table index. -/
def jsStrLower : JValue → String
  | .jstr s => s.map Char.toLower
  | _ => ""

/-- The `new Map(tables.map(t => [t.name.toLowerCase(), t]))` construction of
`parseRelationships` (line 178): the insertion sequence of the map, built
over the already-normalized (and therefore already-filtered) table list. -/
def buildTableMap (tables : List Table) : Except JsErr (List (String × Table)) :=
  jsMapE (fun t => do
    let k ← jsToLowerCase t.name
    pure (k, t)) tables

/-- `Map.prototype.get` over the insertion sequence: a later insertion with
the same key overwrites an earlier one (last-write-wins). -/
def mapGet (entries : List (String × Table)) (k : String) : Option Table :=
  entries.foldl (fun acc p => if p.1 = k then some p.2 else acc) none

/-- `parseRelationship` (`src/parsers/bim-parser.js` lines 181-198).  The two
case-insensitive lookups are performed but their results are never used; the
record stores the raw (defaulted, not case-normalized) names. -/
def parseRelationship (relJson : JValue) (tableMap : List (String × Table)) :
    Except JsErr Relationship := do
  let ft ← getPropE relJson "fromTable"
  let tt ← getPropE relJson "toTable"
  let fromTableName := jsCoalesce ft (.jstr "")
  let toTableName := jsCoalesce tt (.jstr "")
  let ftKey ← jsToLowerCase fromTableName
  let ttKey ← jsToLowerCase toTableName
  let _fromTable := mapGet tableMap ftKey
  let _toTable := mapGet tableMap ttKey
  let n ← getPropE relJson "name"
  let fc ← getPropE relJson "fromColumn"
  let tc ← getPropE relJson "toColumn"
  let cfd ← getPropE relJson "crossFilterDirection"
  let fcard ← getPropE relJson "fromCardinality"
  let tcard ← getPropE relJson "toCardinality"
  let ia ← getPropE relJson "isActive"
  let rie ← getPropE relJson "isReferentialIntegrityEnforced"
  pure { name := n,
         fromTable := fromTableName, toTable := toTableName,
         fromColumn := jsCoalesce fc (.jstr ""),
         toColumn := jsCoalesce tc (.jstr ""),
         cardinality := mapCardinality cfd fcard tcard,
         crossFilteringBehavior := mapCrossFilteringBehavior cfd,
         isActive := jsCoalesce ia (.jbool true),
         isReferentialIntegrityEnforced := rie }

/-- `parseRelationships` (`src/parsers/bim-parser.js` lines 174-180). -/
def parseRelationships (relationshipsJson : JValue) (tables : List Table) :
    Except JsErr (List Relationship) :=
  match relationshipsJson with
  | .jarr rs => do
      let tableMap ← buildTableMap tables
      jsMapE (fun r => parseRelationship r tableMap) rs
  | _ => pure []

/-- The message of the missing-`model` `TomParserError`. -/
def missingModelMsg : String :=
  "BIM JSON is missing required \"model\" property"

/-- `parseBimJson` (`src/parsers/bim-parser.js` lines 51-65): resolve the two
options with `?? true`, throw `MISSING_REQUIRED_FIELD` when `json.model` is
falsy, and otherwise assemble schema, tables and relationships. -/
def parseBimJson (json : JValue) (options : Option ParseOptions) :
    Except JsErr TabularModel := do
  let includeAnnotations := (options.bind fun o => o.includeAnnotations).getD true
  let includeHidden := (options.bind fun o => o.includeHiddenObjects).getD true
  let modelField ← getPropE json "model"
  if !truthyO modelField then
    .error (.tomError "MISSING_REQUIRED_FIELD" missingModelMsg none)
  else do
    let modelV := modelField.getD .jnull
    let model ← parseDataModelSchema modelV includeAnnotations
    let tablesRaw ← getPropE modelV "tables"
    let tables ← parseTables (jsCoalesce tablesRaw (.jarr [])) includeHidden
    let relsRaw ← getPropE modelV "relationships"
    let relationships ← parseRelationships (jsCoalesce relsRaw (.jarr [])) tables
    pure { model := model, tables := tables, relationships := relationships }

/-- The encodings the detector can select.  Decoding bytes to text is done by
the host's `buffer.toString(encoding)`, an external total facility; a decode
result is therefore represented as the chosen encoding paired with the byte
payload handed to it. -/
inductive TextEncoding where
  | utf8
  | utf16le
deriving DecidableEq, Repr

/-- A decoded text: which encoding `buffer.toString` is applied to which
bytes.  Stripping a BOM via `.slice(1)` on the decoded string is modelled by
dropping the BOM's bytes instead, which is equivalent because the BOM decodes
to the single code unit U+FEFF in both UTF-8 and UTF-16LE. -/
structure DecodedText where
  encoding : TextEncoding
  bytes : List Nat
deriving DecidableEq, Repr

/-- `Buffer.prototype.swap16` on an even-length buffer: swap each byte
pair. -/
def swap16 : List Nat → List Nat
  | a :: b :: rest => b :: a :: swap16 rest
  | l => l

/-- `detectAndDecodeBom` (`src/parsers/bim-parser.js` lines 7-24).  The three
BOM checks run in order, then the UTF-16LE heuristic, then the UTF-8
fallback.  In the UTF-16BE branch `buffer.swap16()` throws a `RangeError`
when the buffer length is odd (Node's ERR_INVALID_BUFFER_SIZE). -/
def detectAndDecodeBom (buffer : List Nat) : Except JsErr DecodedText :=
  if buffer.length ≥ 3 ∧ buffer.getD 0 0 = 0xEF ∧ buffer.getD 1 0 = 0xBB ∧
      buffer.getD 2 0 = 0xBF then
    .ok ⟨.utf8, buffer.drop 3⟩
  else if buffer.length ≥ 2 ∧ buffer.getD 0 0 = 0xFF ∧ buffer.getD 1 0 = 0xFE then
    .ok ⟨.utf16le, buffer.drop 2⟩
  else if buffer.length ≥ 2 ∧ buffer.getD 0 0 = 0xFE ∧ buffer.getD 1 0 = 0xFF then
    if buffer.length % 2 = 0 then
      .ok ⟨.utf16le, (swap16 buffer).drop 2⟩
    else
      .error (.rangeError "Buffer size must be a multiple of 16-bits")
  else if buffer.length ≥ 4 ∧ buffer.getD 1 0 = 0 ∧ buffer.getD 3 0 = 0 ∧
      (buffer.getD 0 0 ≠ 0 ∨
        (buffer.length > 10 ∧ buffer.getD 2 0 = 0 ∧ buffer.getD 4 0 = 0)) then
    .ok ⟨.utf16le, buffer⟩
  else
    .ok ⟨.utf8, buffer⟩

/-- `parseBimFile` (`src/parsers/bim-parser.js` lines 28-47), with its two
external collaborators abstracted: `readResult` is the outcome of
`fs.readFile` and `jsonParse` is the host `JSON.parse` applied to the decoded
text.  This is the body of the `try` block. -/
def parseBimFileBody (readResult : Except JsErr (List Nat))
    (jsonParse : DecodedText → Except JsErr JValue)
    (options : Option ParseOptions) : Except JsErr TabularModel := do
  let buffer ← readResult
  let content ← detectAndDecodeBom buffer
  let json ← jsonParse content
  parseBimJson json options

/-- The `catch` block of `parseBimFile`: rethrow `TomParserError`s, map
`ENOENT` to `FILE_NOT_FOUND`, `SyntaxError` to `INVALID_JSON`, and anything
else to `UNKNOWN`, chaining the original error as the cause. -/
def parseBimFileCatch (filePath : String) (e : JsErr) : JsErr :=
  if e.isTom then e
  else if e.code? = some "ENOENT" then
    .tomError "FILE_NOT_FOUND" ("BIM file not found: " ++ filePath) (some e)
  else if e.isSyntax then
    .tomError "INVALID_JSON" ("Invalid JSON in BIM file: " ++ e.message) (some e)
  else
    .tomError "UNKNOWN" ("Error parsing BIM file: " ++ e.message) (some e)

/-- `parseBimFile`: the `try` body with the `catch` mapping applied to any
failure. -/
def parseBimFile (filePath : String) (readResult : Except JsErr (List Nat))
    (jsonParse : DecodedText → Except JsErr JValue)
    (options : Option ParseOptions) : Except JsErr TabularModel :=
  match parseBimFileBody readResult jsonParse options with
  | .ok m => .ok m
  | .error e => .error (parseBimFileCatch filePath e)

/-! ## Basic lemmas about the JavaScript semantics helpers -/

theorem getPropE_of_ne_null (v : JValue) (k : String) (h : v ≠ .jnull) :
    getPropE v k = .ok (getProp v k) := by
  cases v <;> first | exact absurd rfl h | rfl

theorem truthyO_getProp_ne_null {v : JValue} {k : String}
    (h : truthyO (getProp v k) = true) : v ≠ .jnull := by
  intro hv
  subst hv
  simp [getProp, truthyO] at h

theorem jsToString_jstr (s : String) : jsToString (.jstr s) = s := rfl

/-! ## C6: cardinality mapping -/

/-- C6: `mapCardinality` maps the token pair `("1","1")` to `OneToOne`,
`("1","*")` to `OneToMany`, `("*","1")` to `ManyToOne`, and every other
combination of raw values — including `("*","*")` and missing tokens — to the
`OneToMany` default, for any `crossFilterDirection`. -/
theorem mapCardinality_exact (cfd fromCard toCard : Option JValue) :
    mapCardinality cfd (some (.jstr "1")) (some (.jstr "1")) = .OneToOne ∧
    mapCardinality cfd (some (.jstr "1")) (some (.jstr "*")) = .OneToMany ∧
    mapCardinality cfd (some (.jstr "*")) (some (.jstr "1")) = .ManyToOne ∧
    (¬(fromCard = some (.jstr "1") ∧ toCard = some (.jstr "1")) →
     ¬(fromCard = some (.jstr "1") ∧ toCard = some (.jstr "*")) →
     ¬(fromCard = some (.jstr "*") ∧ toCard = some (.jstr "1")) →
     mapCardinality cfd fromCard toCard = .OneToMany) := by
  refine ⟨rfl, rfl, rfl, ?_⟩
  intro h11 h1s hs1
  unfold mapCardinality
  split
  · exact absurd ⟨rfl, rfl⟩ h11
  · exact absurd ⟨rfl, rfl⟩ h1s
  · exact absurd ⟨rfl, rfl⟩ hs1
  · rfl

/-- Witness for C6 at the both-wildcard pair. -/
theorem mapCardinality_exact_witness :
    mapCardinality none (some (.jstr "*")) (some (.jstr "*")) = .OneToMany := by
  refine (mapCardinality_exact none (some (.jstr "*")) (some (.jstr "*"))).2.2.2 ?_ ?_ ?_ <;>
    · rintro ⟨h, h2⟩
      simp_all

/-! ## C5: partition source type -/

/-- C5 (amended): the partition source-type mapper on the raw `source` value:
a falsy `source` (in particular an absent one) yields `None`; a truthy source
whose `type` equals the string `"m"` yields `M` regardless of the other
fields; otherwise a truthy `expression` yields `Calculated`; otherwise a
truthy `query` yields `Query`; otherwise `None`.  (The source tests
truthiness, not mere presence, of `expression` and `query`.) -/
theorem mapPartitionSourceType_spec (source : Option JValue) :
    (truthyO source = false → mapPartitionSourceType source = .None) ∧
    (∀ s, source = some s → truthyJ s = true →
      (getProp s "type" = some (.jstr "m") → mapPartitionSourceType source = .M) ∧
      (getProp s "type" ≠ some (.jstr "m") →
        (truthyO (getProp s "expression") = true →
          mapPartitionSourceType source = .Calculated) ∧
        (truthyO (getProp s "expression") = false →
          truthyO (getProp s "query") = true →
          mapPartitionSourceType source = .Query) ∧
        (truthyO (getProp s "expression") = false →
          truthyO (getProp s "query") = false →
          mapPartitionSourceType source = .None))) := by
  constructor
  · intro h
    simp [mapPartitionSourceType, h]
  · rintro s rfl hs
    have ht : truthyO (some s) = true := by simpa [truthyO] using hs
    constructor
    · intro hm
      simp [mapPartitionSourceType, ht, hm]
    · intro hne
      refine ⟨?_, ?_, ?_⟩
      · intro hexp
        unfold mapPartitionSourceType
        rw [if_pos (by simp [ht])]
        split
        · next heq => exact absurd (by simpa using heq) hne
        · next => simp [hexp]
      · intro hexp hq
        unfold mapPartitionSourceType
        rw [if_pos (by simp [ht])]
        split
        · next heq => exact absurd (by simpa using heq) hne
        · next => simp [hexp, hq]
      · intro hexp hq
        unfold mapPartitionSourceType
        rw [if_pos (by simp [ht])]
        split
        · next heq => exact absurd (by simpa using heq) hne
        · next => simp [hexp, hq]

/-- Witness for C5 (amended): the claim's flagship precedence example — a
source with `type: "m"` and a truthy expression yields `M`, not
`Calculated`. -/
theorem mapPartitionSourceType_spec_witness :
    mapPartitionSourceType
      (some (.jobj [("type", .jstr "m"), ("expression", .jstr "let Source = 1")])) = .M :=
  ((mapPartitionSourceType_spec
      (some (.jobj [("type", .jstr "m"), ("expression", .jstr "let Source = 1")]))).2
    (.jobj [("type", .jstr "m"), ("expression", .jstr "let Source = 1")]) rfl rfl).1 rfl

/-- C5 counterexample: a source whose `expression` field is *present* (bound
to the empty string) and whose `type` is not `"m"` yields `Query` — because a
truthy `query` is also present — although the claim, reading presence
literally, requires `Calculated` whenever the expression field is present. -/
theorem mapPartitionSourceType_present_expression_cex :
    objGet [("expression", JValue.jstr ""), ("query", JValue.jstr "q")] "expression"
      = some (.jstr "") ∧
    mapPartitionSourceType
      (some (.jobj [("expression", .jstr ""), ("query", .jstr "q")])) = .Query ∧
    PartitionSourceType.Query ≠ PartitionSourceType.Calculated :=
  ⟨rfl, rfl, by decide⟩

/-! ## C3: data-type mapping -/

/-- C3: the lookup table maps every listed token correctly and absent/empty
tokens map to `Unknown`, but the mapper is *not* exhaustive: the `typeMap`
object literal inherits from `Object.prototype`, so a token naming one of its
properties (here `"toString"`, likewise `"constructor"`, `"valueOf"`, ...)
makes `typeMap[dataType]` yield the inherited member, which is not nullish,
survives the `?? DataType.Unknown` fallback, and is returned instead of the
`Unknown` enum member. -/
theorem mapDataType_table_and_prototype_leak :
    mapDataType none = .enum .Unknown ∧
    mapDataType (some (.jstr "")) = .enum .Unknown ∧
    mapDataType (some (.jstr "Int64")) = .enum .Int64 ∧
    mapDataType (some (.jstr "Int32")) = .enum .Int64 ∧
    mapDataType (some (.jstr "Double")) = .enum .Double ∧
    mapDataType (some (.jstr "Single")) = .enum .Double ∧
    mapDataType (some (.jstr "Boolean")) = .enum .Boolean ∧
    mapDataType (some (.jstr "String")) = .enum .String ∧
    mapDataType (some (.jstr "DateTime")) = .enum .DateTime ∧
    mapDataType (some (.jstr "DateTimeOffset")) = .enum .DateTime ∧
    mapDataType (some (.jstr "Decimal")) = .enum .Decimal ∧
    mapDataType (some (.jstr "Binary")) = .enum .Binary ∧
    mapDataType (some (.jstr "Table")) = .enum .Table ∧
    mapDataType (some (.jstr "Variant")) = .enum .Variant ∧
    mapDataType (some (.jstr "UnknownType")) = .enum .Unknown ∧
    mapDataType (some (.jstr "toString")) = .inherited "toString" ∧
    mapDataType (some (.jstr "constructor")) = .inherited "constructor" ∧
    MapDataTypeResult.inherited "toString" ≠ .enum .Unknown :=
  ⟨rfl, rfl, rfl, rfl, rfl, rfl, rfl, rfl, rfl, rfl, rfl, rfl, rfl, rfl, rfl,
   rfl, rfl, by decide⟩

/-- C3 supporting fact: every token that is neither a `typeMap` own key nor
an `Object.prototype` property name (and is not the falsy empty string) maps
to `Unknown`; so the leak is confined to the twelve prototype property
names. -/
theorem mapDataType_unknown_of_unlisted (s : String)
    (hs : s ≠ "")
    (hown : typeMapOwn s = none)
    (hproto : objectPrototypeProps.contains s = false) :
    mapDataType (some (.jstr s)) = .enum .Unknown := by
  have ht : truthyO (some (.jstr s)) = true := by
    simp [truthyO, truthyJ, hs]
  unfold mapDataType
  rw [if_pos (by simp [ht])]
  simp only [Option.getD_some, jsToString_jstr, hown, hproto]
  rfl

/-- Instance of the supporting fact at the token `"UnknownType"`. -/
theorem mapDataType_unknown_of_unlisted_example :
    mapDataType (some (.jstr "UnknownType")) = .enum .Unknown :=
  mapDataType_unknown_of_unlisted "UnknownType" (by decide) rfl rfl

/-! ## C10: present-but-falsy model property -/

/-- C10: `parseBimJson` treats a present-but-falsy `model` property exactly
like a missing one: when the document's `model` property holds `null`,
`false`, `0` or the empty string, the guard `!json.model` fires and the call
fails with the `MISSING_REQUIRED_FIELD` error kind even though the property
exists on the document. -/
theorem parseBimJson_falsy_model (fields : List (String × JValue))
    (opts : Option ParseOptions) (v : JValue)
    (hv : objGet fields "model" = some v)
    (hf : v = .jnull ∨ v = .jbool false ∨ v = .jnum 0 ∨ v = .jstr "") :
    parseBimJson (.jobj fields) opts =
      .error (.tomError "MISSING_REQUIRED_FIELD" missingModelMsg none) := by
  have ht : truthyO (objGet fields "model") = false := by
    rw [hv]
    rcases hf with rfl | rfl | rfl | rfl <;> rfl
  unfold parseBimJson
  simp [getPropE, Bind.bind, Except.bind, ht]

/-- Witness for C10 at a document whose `model` property is `null`. -/
theorem parseBimJson_falsy_model_witness :
    parseBimJson (.jobj [("model", .jnull)]) none =
      .error (.tomError "MISSING_REQUIRED_FIELD" missingModelMsg none) :=
  parseBimJson_falsy_model [("model", .jnull)] none .jnull rfl (Or.inl rfl)

/-! ## C2: encoding detection -/

theorem getD_marker2_iff (a b : Nat) (buffer : List Nat) :
    (buffer.length ≥ 2 ∧ buffer.getD 0 0 = a ∧ buffer.getD 1 0 = b) ↔
    ∃ rest, buffer = a :: b :: rest := by
  rcases buffer with _ | ⟨x, _ | ⟨y, rest⟩⟩ <;> simp [List.getD]

theorem getD_marker3_iff (a b c : Nat) (buffer : List Nat) :
    (buffer.length ≥ 3 ∧ buffer.getD 0 0 = a ∧ buffer.getD 1 0 = b ∧
      buffer.getD 2 0 = c) ↔
    ∃ rest, buffer = a :: b :: c :: rest := by
  rcases buffer with _ | ⟨x, _ | ⟨y, _ | ⟨z, rest⟩⟩⟩ <;> simp [List.getD]

/-- C2 counterexample: the detector is not total.  On the odd-length buffer
`FE FF 00` the UTF-16BE branch is taken and `buffer.swap16()` throws a
`RangeError` (Node's ERR_INVALID_BUFFER_SIZE), so no text is returned. -/
theorem detectAndDecodeBom_odd_be_cex :
    detectAndDecodeBom [0xFE, 0xFF, 0x00] =
      .error (.rangeError "Buffer size must be a multiple of 16-bits") := rfl

/-- C2 (amended): the detector applies, in priority order, the UTF-8 BOM,
the UTF-16LE BOM, the UTF-16BE BOM (byte pairs swapped, then decoded as
UTF-16LE), the no-marker UTF-16LE heuristic, and the UTF-8 fallback — and it
returns text for every input except that in the UTF-16BE branch an odd-length
buffer makes `swap16` throw a `RangeError`. -/
theorem detectAndDecodeBom_spec (buffer : List Nat) :
    (∀ rest, buffer = 0xEF :: 0xBB :: 0xBF :: rest →
      detectAndDecodeBom buffer = .ok ⟨.utf8, rest⟩) ∧
    (∀ rest, buffer = 0xFF :: 0xFE :: rest →
      detectAndDecodeBom buffer = .ok ⟨.utf16le, rest⟩) ∧
    (∀ rest, buffer = 0xFE :: 0xFF :: rest →
      (rest.length % 2 = 0 →
        detectAndDecodeBom buffer = .ok ⟨.utf16le, swap16 rest⟩) ∧
      (rest.length % 2 = 1 →
        detectAndDecodeBom buffer =
          .error (.rangeError "Buffer size must be a multiple of 16-bits"))) ∧
    ((∀ rest, buffer ≠ 0xEF :: 0xBB :: 0xBF :: rest) →
     (∀ rest, buffer ≠ 0xFF :: 0xFE :: rest) →
     (∀ rest, buffer ≠ 0xFE :: 0xFF :: rest) →
      ((buffer.length ≥ 4 ∧ buffer.getD 1 0 = 0 ∧ buffer.getD 3 0 = 0 ∧
          (buffer.getD 0 0 ≠ 0 ∨
            (buffer.length > 10 ∧ buffer.getD 2 0 = 0 ∧ buffer.getD 4 0 = 0))) →
        detectAndDecodeBom buffer = .ok ⟨.utf16le, buffer⟩) ∧
      (¬(buffer.length ≥ 4 ∧ buffer.getD 1 0 = 0 ∧ buffer.getD 3 0 = 0 ∧
          (buffer.getD 0 0 ≠ 0 ∨
            (buffer.length > 10 ∧ buffer.getD 2 0 = 0 ∧ buffer.getD 4 0 = 0))) →
        detectAndDecodeBom buffer = .ok ⟨.utf8, buffer⟩)) := by
  refine ⟨?_, ?_, ?_, ?_⟩
  · rintro rest rfl
    unfold detectAndDecodeBom
    rw [if_pos (by simp [List.getD])]
    rfl
  · rintro rest rfl
    unfold detectAndDecodeBom
    rw [if_neg (by simp [List.getD]), if_pos (by simp [List.getD])]
    rfl
  · rintro rest rfl
    constructor
    · intro heven
      unfold detectAndDecodeBom
      rw [if_neg (by simp [List.getD]), if_neg (by simp [List.getD]),
        if_pos (by simp [List.getD]),
        if_pos (by simp only [List.length_cons]; omega)]
      simp [swap16]
    · intro hodd
      unfold detectAndDecodeBom
      rw [if_neg (by simp [List.getD]), if_neg (by simp [List.getD]),
        if_pos (by simp [List.getD]),
        if_neg (by simp only [List.length_cons]; omega)]
  · intro h1 h2 h3
    have c1 : ¬(buffer.length ≥ 3 ∧ buffer.getD 0 0 = 0xEF ∧
        buffer.getD 1 0 = 0xBB ∧ buffer.getD 2 0 = 0xBF) := by
      intro hc
      obtain ⟨rest, hrest⟩ := (getD_marker3_iff 0xEF 0xBB 0xBF buffer).mp hc
      exact h1 rest hrest
    have c2 : ¬(buffer.length ≥ 2 ∧ buffer.getD 0 0 = 0xFF ∧
        buffer.getD 1 0 = 0xFE) := by
      intro hc
      obtain ⟨rest, hrest⟩ := (getD_marker2_iff 0xFF 0xFE buffer).mp hc
      exact h2 rest hrest
    have c3 : ¬(buffer.length ≥ 2 ∧ buffer.getD 0 0 = 0xFE ∧
        buffer.getD 1 0 = 0xFF) := by
      intro hc
      obtain ⟨rest, hrest⟩ := (getD_marker2_iff 0xFE 0xFF buffer).mp hc
      exact h3 rest hrest
    constructor
    · intro hh
      unfold detectAndDecodeBom
      rw [if_neg c1, if_neg c2, if_neg c3, if_pos hh]
    · intro hh
      unfold detectAndDecodeBom
      rw [if_neg c1, if_neg c2, if_neg c3, if_neg hh]

/-- Witness for C2 (amended): the UTF-16BE branch on an even-length buffer
swaps the payload byte pairs and decodes them as UTF-16LE. -/
theorem detectAndDecodeBom_spec_witness :
    detectAndDecodeBom [0xFE, 0xFF, 0x41, 0x00] = .ok ⟨.utf16le, [0x00, 0x41]⟩ := by
  have h := ((detectAndDecodeBom_spec [0xFE, 0xFF, 0x41, 0x00]).2.2.1
    [0x41, 0x00] rfl).1 (by decide)
  simpa [swap16] using h

/-! ## C4: hidden-object filtering -/

theorem exbind_ok {α β : Type} (a : α) (f : α → Except JsErr β) :
    (Except.ok a : Except JsErr α) >>= f = f a := rfl

theorem exbind_err {α β : Type} (e : JsErr) (f : α → Except JsErr β) :
    (Except.error e : Except JsErr α) >>= f = .error e := rfl

theorem expure {α : Type} (a : α) : (pure a : Except JsErr α) = .ok a := rfl

theorem jsFilterE_hiddenPred (inc : Bool) (xs : List JValue)
    (h : ∀ x ∈ xs, x ≠ .jnull) :
    jsFilterE (hiddenPred inc) xs =
      .ok (xs.filter fun t => !truthyO (getProp t "isHidden") || inc) := by
  induction xs with
  | nil => rfl
  | cons x rest ih =>
    have hx : x ≠ .jnull := h x (by simp)
    have hrest : ∀ y ∈ rest, y ≠ .jnull := fun y hy => h y (by simp [hy])
    simp only [jsFilterE, hiddenPred, getPropE_of_ne_null x "isHidden" hx,
      exbind_ok, ih hrest, expure, List.filter_cons]

theorem parseTables_filter_eq (inc : Bool) (ts : List JValue)
    (h : ∀ t ∈ ts, t ≠ .jnull) :
    parseTables (.jarr ts) inc =
      jsMapE (fun t => parseTable t inc)
        (ts.filter fun t => !truthyO (getProp t "isHidden") || inc) := by
  simp only [parseTables, jsFilterE_hiddenPred inc ts h, exbind_ok]

theorem parseColumns_filter_eq (inc : Bool) (cs : List JValue)
    (h : ∀ c ∈ cs, c ≠ .jnull) :
    parseColumns (.jarr cs) inc =
      jsMapE parseColumn
        (cs.filter fun c => !truthyO (getProp c "isHidden") || inc) := by
  simp only [parseColumns, jsFilterE_hiddenPred inc cs h, exbind_ok]

theorem parseMeasures_filter_eq (inc : Bool) (ms : List JValue)
    (h : ∀ m ∈ ms, m ≠ .jnull) :
    parseMeasures (.jarr ms) inc =
      jsMapE parseMeasure
        (ms.filter fun m => !truthyO (getProp m "isHidden") || inc) := by
  simp only [parseMeasures, jsFilterE_hiddenPred inc ms h, exbind_ok]

theorem jsMapE_length {α β : Type} (f : α → Except JsErr β) (xs : List α)
    (out : List β) (h : jsMapE f xs = .ok out) : out.length = xs.length := by
  induction xs generalizing out with
  | nil =>
    simp only [jsMapE, expure] at h
    cases h
    rfl
  | cons x rest ih =>
    simp only [jsMapE] at h
    rcases hx : f x with e | y
    · rw [hx, exbind_err] at h
      cases h
    · rw [hx, exbind_ok] at h
      rcases hr : jsMapE f rest with e | ys
      · rw [hr, exbind_err] at h
        cases h
      · rw [hr, exbind_ok] at h
        cases h
        simp [ih ys hr]

theorem jsFilterE_sublist (p : JValue → Except JsErr Bool) (xs l : List JValue)
    (h : jsFilterE p xs = .ok l) : l.Sublist xs := by
  induction xs generalizing l with
  | nil =>
    simp only [jsFilterE, expure] at h
    cases h
    exact List.Sublist.refl []
  | cons x rest ih =>
    simp only [jsFilterE] at h
    rcases hb : p x with e | b
    · rw [hb, exbind_err] at h
      cases h
    · rw [hb, exbind_ok] at h
      rcases hr : jsFilterE p rest with e | r
      · rw [hr, exbind_err] at h
        cases h
      · rw [hr, exbind_ok] at h
        cases b
        · simp only [expure, Bool.false_eq_true, if_false] at h
          cases h
          exact (ih _ hr).cons x
        · simp only [expure, if_true] at h
          cases h
          exact (ih _ hr).cons₂ x

theorem parseTables_skip_hidden (t : JValue) (rest : List JValue)
    (h : truthyO (getProp t "isHidden") = true) :
    parseTables (.jarr (t :: rest)) false = parseTables (.jarr rest) false := by
  have hx : t ≠ .jnull := truthyO_getProp_ne_null h
  simp only [parseTables, jsFilterE, hiddenPred,
    getPropE_of_ne_null t "isHidden" hx, exbind_ok, h, Bool.not_true,
    Bool.false_or]
  rcases hr : jsFilterE (hiddenPred false) rest with e | r <;>
    simp [exbind_ok, exbind_err, expure]

theorem parseTable_isHidden_preserved (t : JValue) (inc : Bool) (tbl : Table)
    (h : parseTable t inc = .ok tbl) : tbl.isHidden = getProp t "isHidden" := by
  have hx : t ≠ .jnull := by
    intro he
    subst he
    simp [parseTable, getPropE, exbind_err] at h
  unfold parseTable at h
  rw [getPropE_of_ne_null t "name" hx, exbind_ok,
    getPropE_of_ne_null t "description" hx, exbind_ok,
    getPropE_of_ne_null t "isHidden" hx, exbind_ok,
    getPropE_of_ne_null t "columns" hx, exbind_ok] at h
  rcases hc : parseColumns (jsCoalesce (getProp t "columns") (.jarr [])) inc with e | cols
  · rw [hc, exbind_err] at h
    cases h
  · rw [hc, exbind_ok, getPropE_of_ne_null t "partitions" hx, exbind_ok] at h
    rcases hp : parsePartitions (jsCoalesce (getProp t "partitions") (.jarr [])) with e | parts
    · rw [hp, exbind_err] at h
      cases h
    · rw [hp, exbind_ok, getPropE_of_ne_null t "measures" hx, exbind_ok] at h
      rcases hm : parseMeasures (jsCoalesce (getProp t "measures") (.jarr [])) inc with e | meas
      · rw [hm, exbind_err] at h
        cases h
      · rw [hm, exbind_ok, expure] at h
        cases h
        rfl

theorem parseColumn_isHidden_preserved (c : JValue) (col : Column)
    (h : parseColumn c = .ok col) : col.isHidden = getProp c "isHidden" := by
  have hx : c ≠ .jnull := by
    intro he
    subst he
    simp [parseColumn, getPropE, exbind_err] at h
  unfold parseColumn at h
  rw [getPropE_of_ne_null c "name" hx, exbind_ok,
    getPropE_of_ne_null c "dataType" hx, exbind_ok,
    getPropE_of_ne_null c "isHidden" hx, exbind_ok,
    getPropE_of_ne_null c "description" hx, exbind_ok,
    getPropE_of_ne_null c "expression" hx, exbind_ok,
    getPropE_of_ne_null c "calculatedColumn" hx, exbind_ok,
    getPropE_of_ne_null c "formatString" hx, exbind_ok,
    getPropE_of_ne_null c "summarizeBy" hx, exbind_ok, expure] at h
  cases h
  rfl

theorem parseMeasure_isHidden_preserved (m : JValue) (meas : Measure)
    (h : parseMeasure m = .ok meas) : meas.isHidden = getProp m "isHidden" := by
  have hx : m ≠ .jnull := by
    intro he
    subst he
    simp [parseMeasure, getPropE, exbind_err] at h
  unfold parseMeasure at h
  rw [getPropE_of_ne_null m "name" hx, exbind_ok,
    getPropE_of_ne_null m "expression" hx, exbind_ok,
    getPropE_of_ne_null m "formatString" hx, exbind_ok,
    getPropE_of_ne_null m "displayFolder" hx, exbind_ok,
    getPropE_of_ne_null m "isHidden" hx, exbind_ok,
    getPropE_of_ne_null m "description" hx, exbind_ok, expure] at h
  cases h
  rfl

theorem parseRelationships_length (rs : List JValue) (tables : List Table)
    (out : List Relationship)
    (h : parseRelationships (.jarr rs) tables = .ok out) :
    out.length = rs.length := by
  simp only [parseRelationships] at h
  rcases hm : buildTableMap tables with e | m
  · rw [hm, exbind_err] at h
    cases h
  · rw [hm, exbind_ok] at h
    exact jsMapE_length _ rs out h

/-- C4: hidden-object filtering.  With `includeHiddenObjects = false` the
table/column/measure lists are the normalizations of the raw lists filtered
by non-truthy `isHidden` (so truthy-`isHidden` items are excluded, the filter
runs before child normalization, and survivors keep their relative order:
`List.filter` preserves order and, on success, the kept raw items form a
sublist of the input); with `includeHiddenObjects = true` every item is kept
and the produced entity stores the raw `isHidden` value verbatim; a
truthy-hidden table is dropped without its children ever being normalized;
partitions and relationships are mapped one-to-one with no hidden
filtering. -/
theorem hidden_object_filtering_spec :
    (∀ ts : List JValue, (∀ t ∈ ts, t ≠ JValue.jnull) →
      parseTables (.jarr ts) false =
        jsMapE (fun t => parseTable t false)
          (ts.filter fun t => !truthyO (getProp t "isHidden")) ∧
      parseTables (.jarr ts) true = jsMapE (fun t => parseTable t true) ts) ∧
    (∀ cs : List JValue, (∀ c ∈ cs, c ≠ JValue.jnull) →
      parseColumns (.jarr cs) false =
        jsMapE parseColumn (cs.filter fun c => !truthyO (getProp c "isHidden")) ∧
      parseColumns (.jarr cs) true = jsMapE parseColumn cs) ∧
    (∀ ms : List JValue, (∀ m ∈ ms, m ≠ JValue.jnull) →
      parseMeasures (.jarr ms) false =
        jsMapE parseMeasure (ms.filter fun m => !truthyO (getProp m "isHidden")) ∧
      parseMeasures (.jarr ms) true = jsMapE parseMeasure ms) ∧
    (∀ t rest, truthyO (getProp t "isHidden") = true →
      parseTables (.jarr (t :: rest)) false = parseTables (.jarr rest) false) ∧
    (∀ t inc tbl, parseTable t inc = .ok tbl →
      tbl.isHidden = getProp t "isHidden") ∧
    (∀ c col, parseColumn c = .ok col → col.isHidden = getProp c "isHidden") ∧
    (∀ m meas, parseMeasure m = .ok meas →
      meas.isHidden = getProp m "isHidden") ∧
    (∀ ps out, parsePartitions (.jarr ps) = .ok out → out.length = ps.length) ∧
    (∀ rs tables out, parseRelationships (.jarr rs) tables = .ok out →
      out.length = rs.length) ∧
    (∀ ts inc kept, jsFilterE (hiddenPred inc) ts = .ok kept →
      kept.Sublist ts) := by
  refine ⟨?_, ?_, ?_, ?_, ?_, ?_, ?_, ?_, ?_, ?_⟩
  · intro ts h
    constructor
    · simpa only [Bool.or_false] using parseTables_filter_eq false ts h
    · simpa only [Bool.or_true, List.filter_true] using
        parseTables_filter_eq true ts h
  · intro cs h
    constructor
    · simpa only [Bool.or_false] using parseColumns_filter_eq false cs h
    · simpa only [Bool.or_true, List.filter_true] using
        parseColumns_filter_eq true cs h
  · intro ms h
    constructor
    · simpa only [Bool.or_false] using parseMeasures_filter_eq false ms h
    · simpa only [Bool.or_true, List.filter_true] using
        parseMeasures_filter_eq true ms h
  · exact parseTables_skip_hidden
  · exact parseTable_isHidden_preserved
  · exact parseColumn_isHidden_preserved
  · exact parseMeasure_isHidden_preserved
  · intro ps out h
    exact jsMapE_length parsePartition ps out h
  · exact parseRelationships_length
  · intro ts inc kept h
    exact jsFilterE_sublist (hiddenPred inc) ts kept h

/-- Witness for C4: a hidden table whose raw `columns` array contains a
`null` entry (which would throw if ever normalized) is silently dropped when
hidden objects are excluded — the filter runs before child normalization. -/
theorem hidden_object_filtering_spec_witness :
    parseTables (.jarr [.jobj [("name", .jstr "T"), ("isHidden", .jbool true),
      ("columns", .jarr [.jnull])]]) false = .ok [] := by
  have h := (hidden_object_filtering_spec.1
    [.jobj [("name", .jstr "T"), ("isHidden", .jbool true),
      ("columns", .jarr [.jnull])]] (by simp)).1
  rw [h]
  rfl

/-! ## C7: relationship resolution -/

theorem parseRelationship_map_irrelevant (rel : JValue)
    (m₁ m₂ : List (String × Table)) :
    parseRelationship rel m₁ = parseRelationship rel m₂ := rfl

theorem parseRelationship_stores_raw (rel : JValue)
    (tm : List (String × Table)) (r : Relationship)
    (h : parseRelationship rel tm = .ok r) :
    r.fromTable = jsCoalesce (getProp rel "fromTable") (.jstr "") ∧
    r.toTable = jsCoalesce (getProp rel "toTable") (.jstr "") ∧
    r.fromColumn = jsCoalesce (getProp rel "fromColumn") (.jstr "") ∧
    r.toColumn = jsCoalesce (getProp rel "toColumn") (.jstr "") := by
  have hx : rel ≠ .jnull := by
    intro he
    subst he
    simp [parseRelationship, getPropE, exbind_err] at h
  simp only [parseRelationship] at h
  rw [getPropE_of_ne_null rel "fromTable" hx, exbind_ok,
    getPropE_of_ne_null rel "toTable" hx, exbind_ok] at h
  rcases hf : jsToLowerCase (jsCoalesce (getProp rel "fromTable") (.jstr "")) with e | ks
  · rw [hf, exbind_err] at h
    cases h
  · rw [hf, exbind_ok] at h
    rcases ht : jsToLowerCase (jsCoalesce (getProp rel "toTable") (.jstr "")) with e | kt
    · rw [ht, exbind_err] at h
      cases h
    · rw [ht, exbind_ok,
        getPropE_of_ne_null rel "name" hx, exbind_ok,
        getPropE_of_ne_null rel "fromColumn" hx, exbind_ok,
        getPropE_of_ne_null rel "toColumn" hx, exbind_ok,
        getPropE_of_ne_null rel "crossFilterDirection" hx, exbind_ok,
        getPropE_of_ne_null rel "fromCardinality" hx, exbind_ok,
        getPropE_of_ne_null rel "toCardinality" hx, exbind_ok,
        getPropE_of_ne_null rel "isActive" hx, exbind_ok,
        getPropE_of_ne_null rel "isReferentialIntegrityEnforced" hx, exbind_ok,
        expure] at h
      cases h
      exact ⟨rfl, rfl, rfl, rfl⟩

theorem parseRelationship_eval (rel : JValue)
    (tm : List (String × Table)) (s1 s2 : String)
    (hx : rel ≠ .jnull)
    (h1 : jsCoalesce (getProp rel "fromTable") (.jstr "") = .jstr s1)
    (h2 : jsCoalesce (getProp rel "toTable") (.jstr "") = .jstr s2) :
    parseRelationship rel tm = .ok
      { name := getProp rel "name",
        fromTable := .jstr s1, toTable := .jstr s2,
        fromColumn := jsCoalesce (getProp rel "fromColumn") (.jstr ""),
        toColumn := jsCoalesce (getProp rel "toColumn") (.jstr ""),
        cardinality := mapCardinality (getProp rel "crossFilterDirection")
          (getProp rel "fromCardinality") (getProp rel "toCardinality"),
        crossFilteringBehavior :=
          mapCrossFilteringBehavior (getProp rel "crossFilterDirection"),
        isActive := jsCoalesce (getProp rel "isActive") (.jbool true),
        isReferentialIntegrityEnforced :=
          getProp rel "isReferentialIntegrityEnforced" } := by
  simp only [parseRelationship]
  rw [getPropE_of_ne_null rel "fromTable" hx, exbind_ok,
    getPropE_of_ne_null rel "toTable" hx, exbind_ok, h1, h2]
  rw [show jsToLowerCase (.jstr s1) = .ok (s1.map Char.toLower) from rfl, exbind_ok,
    show jsToLowerCase (.jstr s2) = .ok (s2.map Char.toLower) from rfl, exbind_ok,
    getPropE_of_ne_null rel "name" hx, exbind_ok,
    getPropE_of_ne_null rel "fromColumn" hx, exbind_ok,
    getPropE_of_ne_null rel "toColumn" hx, exbind_ok,
    getPropE_of_ne_null rel "crossFilterDirection" hx, exbind_ok,
    getPropE_of_ne_null rel "fromCardinality" hx, exbind_ok,
    getPropE_of_ne_null rel "toCardinality" hx, exbind_ok,
    getPropE_of_ne_null rel "isActive" hx, exbind_ok,
    getPropE_of_ne_null rel "isReferentialIntegrityEnforced" hx, exbind_ok,
    expure]

theorem buildTableMap_spec (tables : List Table)
    (h : ∀ t ∈ tables, ∃ s, t.name = .jstr s) :
    buildTableMap tables = .ok (tables.map fun t => (jsStrLower t.name, t)) := by
  induction tables with
  | nil => rfl
  | cons t rest ih =>
    obtain ⟨s, hs⟩ := h t (by simp)
    have hrest : ∀ x ∈ rest, ∃ s, x.name = .jstr s := fun x hx => h x (by simp [hx])
    simp only [buildTableMap, jsMapE] at ih ⊢
    rw [hs]
    rw [show jsToLowerCase (.jstr s) = .ok (s.map Char.toLower) from rfl, exbind_ok,
      expure, exbind_ok, ih hrest, exbind_ok, expure, List.map_cons, hs]
    rfl

theorem mapGet_last_write_wins (entries : List (String × Table)) (k : String) :
    mapGet entries k = (entries.reverse.find? fun p => p.1 == k).map Prod.snd := by
  induction entries using List.reverseRecOn with
  | nil => rfl
  | append_singleton l p ih =>
    unfold mapGet at ih ⊢
    rw [List.foldl_append, List.reverse_append]
    by_cases hp : p.1 = k
    · simp [hp, List.find?]
    · simp only [List.foldl_cons, List.foldl_nil, List.reverse_cons,
        List.reverse_nil, List.nil_append, List.singleton_append,
        List.find?_cons]
      rw [if_neg hp]
      have hb : (p.1 == k) = false := by
        simp [hp]
      simp [hb, ih]

theorem parseBimJson_relationships_from_tables (json : JValue)
    (opts : Option ParseOptions) (m : TabularModel)
    (h : parseBimJson json opts = .ok m) :
    ∃ modelV, getProp json "model" = some modelV ∧
      parseRelationships (jsCoalesce (getProp modelV "relationships") (.jarr []))
        m.tables = .ok m.relationships := by
  have hx : json ≠ .jnull := by
    intro he
    subst he
    simp [parseBimJson, getPropE, exbind_err] at h
  simp only [parseBimJson] at h
  rw [getPropE_of_ne_null json "model" hx, exbind_ok] at h
  rcases hmf : getProp json "model" with _ | modelV
  · rw [hmf] at h
    simp [truthyO] at h
  · rw [hmf] at h
    refine ⟨modelV, rfl, ?_⟩
    by_cases htr : truthyJ modelV = true
    · have hmv : modelV ≠ .jnull := by
        intro he
        subst he
        simp [truthyJ] at htr
      simp only [truthyO, htr, Bool.not_true, Bool.false_eq_true, if_false,
        Option.getD_some] at h
      rcases hds : parseDataModelSchema modelV
          ((opts.bind fun o => o.includeAnnotations).getD true) with e | sch
      · rw [hds, exbind_err] at h
        cases h
      · rw [hds, exbind_ok, getPropE_of_ne_null modelV "tables" hmv,
          exbind_ok] at h
        rcases htab : parseTables (jsCoalesce (getProp modelV "tables") (.jarr []))
            ((opts.bind fun o => o.includeHiddenObjects).getD true) with e | tabs
        · rw [htab, exbind_err] at h
          cases h
        · rw [htab, exbind_ok, getPropE_of_ne_null modelV "relationships" hmv,
            exbind_ok] at h
          rcases hrel : parseRelationships
              (jsCoalesce (getProp modelV "relationships") (.jarr [])) tabs with e | rels
          · rw [hrel, exbind_err] at h
            cases h
          · rw [hrel, exbind_ok, expure] at h
            cases h
            exact hrel
    · have hf : truthyJ modelV = false := by
        cases hb : truthyJ modelV
        · rfl
        · exact absurd hb htr
      simp [truthyO, hf] at h

/-- C7: relationship resolution.  The `parseRelationship` result is
independent of the table index (the two case-insensitive lookups are dead);
every produced relationship stores the raw (`?? ''`-defaulted, not
case-normalized) `fromTable`/`toTable`/`fromColumn`/`toColumn` values; a
relationship whose (string) table names match no table still produces a
record for any index, including the empty one; the index built by
`parseRelationships` maps each lower-cased table name to the table, with a
later table silently overwriting an earlier one whose lower-cased name
collides (`find?` over the reversed insertion sequence); and on any
successful `parseBimJson` run the relationships were resolved against
exactly the returned (already hidden-filtered) table list. -/
theorem relationship_resolution_spec :
    (∀ rel m₁ m₂, parseRelationship rel m₁ = parseRelationship rel m₂) ∧
    (∀ rel tm r, parseRelationship rel tm = .ok r →
      r.fromTable = jsCoalesce (getProp rel "fromTable") (.jstr "") ∧
      r.toTable = jsCoalesce (getProp rel "toTable") (.jstr "") ∧
      r.fromColumn = jsCoalesce (getProp rel "fromColumn") (.jstr "") ∧
      r.toColumn = jsCoalesce (getProp rel "toColumn") (.jstr "")) ∧
    (∀ rel tm s1 s2, rel ≠ JValue.jnull →
      jsCoalesce (getProp rel "fromTable") (.jstr "") = .jstr s1 →
      jsCoalesce (getProp rel "toTable") (.jstr "") = .jstr s2 →
      ∃ r, parseRelationship rel tm = .ok r) ∧
    (∀ tables, (∀ t ∈ tables, ∃ s, t.name = .jstr s) →
      buildTableMap tables = .ok (tables.map fun t => (jsStrLower t.name, t))) ∧
    (∀ entries k, mapGet entries k =
      (entries.reverse.find? fun p => p.1 == k).map Prod.snd) ∧
    (∀ json opts m, parseBimJson json opts = .ok m →
      ∃ modelV, getProp json "model" = some modelV ∧
        parseRelationships (jsCoalesce (getProp modelV "relationships") (.jarr []))
          m.tables = .ok m.relationships) := by
  refine ⟨parseRelationship_map_irrelevant, parseRelationship_stores_raw, ?_,
    buildTableMap_spec, mapGet_last_write_wins,
    parseBimJson_relationships_from_tables⟩
  intro rel tm s1 s2 hx h1 h2
  exact ⟨_, parseRelationship_eval rel tm s1 s2 hx h1 h2⟩

/-- Witness for C7: a relationship naming `"customer"` against an empty table
index still parses and stores `"customer"` verbatim. -/
theorem relationship_resolution_spec_witness :
    ∃ r, parseRelationship (.jobj [("fromTable", .jstr "customer"),
      ("toTable", .jstr "Sales")]) [] = .ok r ∧
      r.fromTable = .jstr "customer" := by
  obtain ⟨r, hr⟩ := relationship_resolution_spec.2.2.1
    (.jobj [("fromTable", .jstr "customer"), ("toTable", .jstr "Sales")]) []
    "customer" "Sales" (by simp) rfl rfl
  refine ⟨r, hr, ?_⟩
  rw [(relationship_resolution_spec.2.1 _ _ r hr).1]
  rfl

/-! ## C1: missing-model behaviour and error taxonomy.

The lemmas below show that no parser function other than the top-level
`!json.model` guard ever constructs a `TomParserError`: every other failure
is a host `TypeError`. -/

theorem noTom_bind {α β : Type} (ma : Except JsErr α) (f : α → Except JsErr β)
    (hma : ∀ e, ma = .error e → e.isTom = false)
    (hf : ∀ a e, f a = .error e → e.isTom = false) :
    ∀ e, ma >>= f = .error e → e.isTom = false := by
  intro e h
  cases ma with
  | error e' =>
    rw [exbind_err] at h
    cases h
    exact hma _ rfl
  | ok a =>
    rw [exbind_ok] at h
    exact hf a e h

theorem noTom_pure {α : Type} (a : α) :
    ∀ e, (pure a : Except JsErr α) = .error e → e.isTom = false := by
  intro e h
  exact Except.noConfusion h

theorem noTom_ite {α : Type} (c : Prop) [Decidable c] (x y : Except JsErr α)
    (hx : ∀ e, x = .error e → e.isTom = false)
    (hy : ∀ e, y = .error e → e.isTom = false) :
    ∀ e, (if c then x else y) = .error e → e.isTom = false := by
  split
  · exact hx
  · exact hy

theorem noTom_getPropE (v : JValue) (k : String) :
    ∀ e, getPropE v k = .error e → e.isTom = false := by
  intro e h
  cases v with
  | jnull =>
    cases h
    rfl
  | jbool b => exact Except.noConfusion h
  | jnum n => exact Except.noConfusion h
  | jstr s => exact Except.noConfusion h
  | jarr es => exact Except.noConfusion h
  | jobj fs => exact Except.noConfusion h

theorem noTom_jsToLowerCase (v : JValue) :
    ∀ e, jsToLowerCase v = .error e → e.isTom = false := by
  intro e h
  cases v with
  | jstr s => exact Except.noConfusion h
  | jnull => cases h; rfl
  | jbool b => cases h; rfl
  | jnum n => cases h; rfl
  | jarr es => cases h; rfl
  | jobj fs => cases h; rfl

theorem noTom_jsMapE {α β : Type} (f : α → Except JsErr β)
    (hf : ∀ x e, f x = .error e → e.isTom = false) (xs : List α) :
    ∀ e, jsMapE f xs = .error e → e.isTom = false := by
  induction xs with
  | nil =>
    intro e h
    exact Except.noConfusion h
  | cons x rest ih =>
    simp only [jsMapE]
    exact noTom_bind _ _ (hf x) fun y =>
      noTom_bind _ _ ih fun ys => noTom_pure _

theorem noTom_jsFilterE (p : JValue → Except JsErr Bool)
    (hp : ∀ x e, p x = .error e → e.isTom = false) (xs : List JValue) :
    ∀ e, jsFilterE p xs = .error e → e.isTom = false := by
  induction xs with
  | nil =>
    intro e h
    exact Except.noConfusion h
  | cons x rest ih =>
    simp only [jsFilterE]
    exact noTom_bind _ _ (hp x) fun b =>
      noTom_bind _ _ ih fun l => noTom_pure _

theorem noTom_hiddenPred (inc : Bool) (v : JValue) :
    ∀ e, hiddenPred inc v = .error e → e.isTom = false := by
  simp only [hiddenPred]
  exact noTom_bind _ _ (noTom_getPropE v "isHidden") fun h => noTom_pure _

theorem noTom_parseAnnotations (aj : Option JValue) :
    ∀ e, parseAnnotations aj = .error e → e.isTom = false := by
  intro e h
  rcases aj with _ | v
  · exact Except.noConfusion h
  · cases v with
    | jarr as =>
      exact noTom_jsMapE _ (fun a => noTom_bind _ _ (noTom_getPropE a "name")
        fun n => noTom_bind _ _ (noTom_getPropE a "value")
        fun w => noTom_pure _) as e h
    | jnull => exact Except.noConfusion h
    | jbool b => exact Except.noConfusion h
    | jnum n => exact Except.noConfusion h
    | jstr s => exact Except.noConfusion h
    | jobj fs => exact Except.noConfusion h

theorem noTom_parseDataModelSchema (mj : JValue) (ia : Bool) :
    ∀ e, parseDataModelSchema mj ia = .error e → e.isTom = false := by
  simp only [parseDataModelSchema]
  refine noTom_bind _ _ (noTom_getPropE mj "name") fun n => ?_
  refine noTom_bind _ _ (noTom_getPropE mj "compatibilityLevel") fun cl => ?_
  refine noTom_bind _ _ (noTom_getPropE mj "cultures") fun cr => ?_
  have tailTac : ∀ (cult : Except JsErr (List Culture)),
      (∀ e, cult = .error e → e.isTom = false) →
      ∀ e, (cult >>= fun y => getPropE mj "annotations" >>= fun annsRaw =>
        if (truthyO annsRaw && ia) = true then
          parseAnnotations annsRaw >>= fun a =>
            pure ({ name := jsCoalesce n (.jstr "Model"),
                    compatibilityLevel := jsCoalesce cl (.jnum 0),
                    cultures := y, annotations := a } : DataModelSchema)
        else
          (pure [] : Except JsErr (List AnnotationEntry)) >>= fun a =>
            pure ({ name := jsCoalesce n (.jstr "Model"),
                    compatibilityLevel := jsCoalesce cl (.jnum 0),
                    cultures := y, annotations := a } : DataModelSchema)) = .error e →
        e.isTom = false := by
    intro cult hc
    refine noTom_bind _ _ hc fun y => ?_
    refine noTom_bind _ _ (noTom_getPropE mj "annotations") fun ar => ?_
    exact noTom_ite _ _ _ (noTom_bind _ _ (noTom_parseAnnotations ar)
      fun a => noTom_pure _) (noTom_bind _ _ (noTom_pure _) fun a => noTom_pure _)
  rcases cr with _ | w
  · exact tailTac _ (noTom_pure _)
  · cases w with
    | jarr cs =>
      exact tailTac _ (noTom_jsMapE _ (fun c =>
        noTom_bind _ _ (noTom_getPropE c "name") fun cn =>
          noTom_ite _ _ _
            (noTom_bind _ _ (noTom_getPropE c "annotations") fun ca =>
              noTom_bind _ _ (noTom_parseAnnotations ca) fun anns => noTom_pure _)
            (noTom_pure _)) cs)
    | jnull => exact tailTac _ (noTom_pure _)
    | jbool b => exact tailTac _ (noTom_pure _)
    | jnum n => exact tailTac _ (noTom_pure _)
    | jstr s => exact tailTac _ (noTom_pure _)
    | jobj fs => exact tailTac _ (noTom_pure _)

theorem noTom_parseColumn (c : JValue) :
    ∀ e, parseColumn c = .error e → e.isTom = false := by
  simp only [parseColumn]
  refine noTom_bind _ _ (noTom_getPropE c "name") fun n => ?_
  refine noTom_bind _ _ (noTom_getPropE c "dataType") fun dt => ?_
  refine noTom_bind _ _ (noTom_getPropE c "isHidden") fun hid => ?_
  refine noTom_bind _ _ (noTom_getPropE c "description") fun desc => ?_
  refine noTom_bind _ _ (noTom_getPropE c "expression") fun expr => ?_
  refine noTom_bind _ _ (noTom_getPropE c "calculatedColumn") fun cc => ?_
  refine noTom_bind _ _ (noTom_getPropE c "formatString") fun fs => ?_
  exact noTom_bind _ _ (noTom_getPropE c "summarizeBy") fun sb => noTom_pure _

theorem noTom_parseColumns (cj : JValue) (inc : Bool) :
    ∀ e, parseColumns cj inc = .error e → e.isTom = false := by
  intro e h
  cases cj with
  | jarr cs =>
    exact noTom_bind _ _ (noTom_jsFilterE _ (noTom_hiddenPred inc) cs)
      (fun kept => noTom_jsMapE _ noTom_parseColumn kept) e h
  | jnull => exact Except.noConfusion h
  | jbool b => exact Except.noConfusion h
  | jnum n => exact Except.noConfusion h
  | jstr s => exact Except.noConfusion h
  | jobj fs => exact Except.noConfusion h

theorem noTom_parsePartition (p : JValue) :
    ∀ e, parsePartition p = .error e → e.isTom = false := by
  simp only [parsePartition]
  refine noTom_bind _ _ (noTom_getPropE p "name") fun n => ?_
  refine noTom_bind _ _ (noTom_getPropE p "source") fun src => ?_
  refine noTom_bind _ _ (noTom_getPropE p "description") fun desc => ?_
  exact noTom_ite _ _ _ (noTom_pure _) (noTom_pure _)

theorem noTom_parsePartitions (pj : JValue) :
    ∀ e, parsePartitions pj = .error e → e.isTom = false := by
  intro e h
  cases pj with
  | jarr ps => exact noTom_jsMapE _ noTom_parsePartition ps e h
  | jnull => exact Except.noConfusion h
  | jbool b => exact Except.noConfusion h
  | jnum n => exact Except.noConfusion h
  | jstr s => exact Except.noConfusion h
  | jobj fs => exact Except.noConfusion h

theorem noTom_parseMeasure (m : JValue) :
    ∀ e, parseMeasure m = .error e → e.isTom = false := by
  simp only [parseMeasure]
  refine noTom_bind _ _ (noTom_getPropE m "name") fun n => ?_
  refine noTom_bind _ _ (noTom_getPropE m "expression") fun ex => ?_
  refine noTom_bind _ _ (noTom_getPropE m "formatString") fun fs => ?_
  refine noTom_bind _ _ (noTom_getPropE m "displayFolder") fun df => ?_
  refine noTom_bind _ _ (noTom_getPropE m "isHidden") fun hid => ?_
  exact noTom_bind _ _ (noTom_getPropE m "description") fun desc => noTom_pure _

theorem noTom_parseMeasures (mj : JValue) (inc : Bool) :
    ∀ e, parseMeasures mj inc = .error e → e.isTom = false := by
  intro e h
  cases mj with
  | jarr ms =>
    exact noTom_bind _ _ (noTom_jsFilterE _ (noTom_hiddenPred inc) ms)
      (fun kept => noTom_jsMapE _ noTom_parseMeasure kept) e h
  | jnull => exact Except.noConfusion h
  | jbool b => exact Except.noConfusion h
  | jnum n => exact Except.noConfusion h
  | jstr s => exact Except.noConfusion h
  | jobj fs => exact Except.noConfusion h

theorem noTom_parseTable (t : JValue) (inc : Bool) :
    ∀ e, parseTable t inc = .error e → e.isTom = false := by
  simp only [parseTable]
  refine noTom_bind _ _ (noTom_getPropE t "name") fun n => ?_
  refine noTom_bind _ _ (noTom_getPropE t "description") fun desc => ?_
  refine noTom_bind _ _ (noTom_getPropE t "isHidden") fun hid => ?_
  refine noTom_bind _ _ (noTom_getPropE t "columns") fun colsRaw => ?_
  refine noTom_bind _ _ (noTom_parseColumns _ inc) fun cols => ?_
  refine noTom_bind _ _ (noTom_getPropE t "partitions") fun partsRaw => ?_
  refine noTom_bind _ _ (noTom_parsePartitions _) fun parts => ?_
  refine noTom_bind _ _ (noTom_getPropE t "measures") fun measRaw => ?_
  exact noTom_bind _ _ (noTom_parseMeasures _ inc) fun meas => noTom_pure _

theorem noTom_parseTables (tj : JValue) (inc : Bool) :
    ∀ e, parseTables tj inc = .error e → e.isTom = false := by
  intro e h
  cases tj with
  | jarr ts =>
    exact noTom_bind _ _ (noTom_jsFilterE _ (noTom_hiddenPred inc) ts)
      (fun kept => noTom_jsMapE _ (fun t => noTom_parseTable t inc) kept) e h
  | jnull => exact Except.noConfusion h
  | jbool b => exact Except.noConfusion h
  | jnum n => exact Except.noConfusion h
  | jstr s => exact Except.noConfusion h
  | jobj fs => exact Except.noConfusion h

theorem noTom_buildTableMap (tables : List Table) :
    ∀ e, buildTableMap tables = .error e → e.isTom = false := by
  simp only [buildTableMap]
  exact noTom_jsMapE _ (fun t => noTom_bind _ _ (noTom_jsToLowerCase t.name)
    fun k => noTom_pure _) tables

theorem noTom_parseRelationship (rel : JValue) (tm : List (String × Table)) :
    ∀ e, parseRelationship rel tm = .error e → e.isTom = false := by
  simp only [parseRelationship]
  refine noTom_bind _ _ (noTom_getPropE rel "fromTable") fun ft => ?_
  refine noTom_bind _ _ (noTom_getPropE rel "toTable") fun tt => ?_
  refine noTom_bind _ _ (noTom_jsToLowerCase _) fun ftKey => ?_
  refine noTom_bind _ _ (noTom_jsToLowerCase _) fun ttKey => ?_
  refine noTom_bind _ _ (noTom_getPropE rel "name") fun n => ?_
  refine noTom_bind _ _ (noTom_getPropE rel "fromColumn") fun fc => ?_
  refine noTom_bind _ _ (noTom_getPropE rel "toColumn") fun tc => ?_
  refine noTom_bind _ _ (noTom_getPropE rel "crossFilterDirection") fun cfd => ?_
  refine noTom_bind _ _ (noTom_getPropE rel "fromCardinality") fun fcard => ?_
  refine noTom_bind _ _ (noTom_getPropE rel "toCardinality") fun tcard => ?_
  refine noTom_bind _ _ (noTom_getPropE rel "isActive") fun ia => ?_
  exact noTom_bind _ _ (noTom_getPropE rel "isReferentialIntegrityEnforced")
    fun rie => noTom_pure _

theorem noTom_parseRelationships (rj : JValue) (tables : List Table) :
    ∀ e, parseRelationships rj tables = .error e → e.isTom = false := by
  intro e h
  cases rj with
  | jarr rs =>
    exact noTom_bind _ _ (noTom_buildTableMap tables)
      (fun tm => noTom_jsMapE _ (fun r => noTom_parseRelationship r tm) rs) e h
  | jnull => exact Except.noConfusion h
  | jbool b => exact Except.noConfusion h
  | jnum n => exact Except.noConfusion h
  | jstr s => exact Except.noConfusion h
  | jobj fs => exact Except.noConfusion h

theorem parseBimJson_noTom_of_truthy (json : JValue) (opts : Option ParseOptions)
    (htr : truthyO (getProp json "model") = true) :
    ∀ e, parseBimJson json opts = .error e → e.isTom = false := by
  have hx : json ≠ .jnull := by
    intro he
    subst he
    simp [getProp, truthyO] at htr
  simp only [parseBimJson]
  rw [getPropE_of_ne_null json "model" hx]
  simp only [exbind_ok, htr, Bool.not_true, Bool.false_eq_true, if_false]
  refine noTom_bind _ _ (noTom_parseDataModelSchema _ _) fun sch => ?_
  refine noTom_bind _ _ (noTom_getPropE _ "tables") fun tr => ?_
  refine noTom_bind _ _ (noTom_parseTables _ _) fun tabs => ?_
  refine noTom_bind _ _ (noTom_getPropE _ "relationships") fun rr => ?_
  exact noTom_bind _ _ (noTom_parseRelationships _ _) fun rels => noTom_pure _

/-- C1 (amended): `parseBimJson` fails with the `MISSING_REQUIRED_FIELD`
error kind iff the input document is not JSON `null` and its `model` property
is absent **or falsy** (and then, the result being an exception, no partial
result is returned); when the `model` property is truthy the parser never
raises any `TomParserError` — but it is not total: a failure can still occur,
always as a host `TypeError` (property access on a `null` element of
`tables`/`cultures`/`annotations`/`columns`/`measures`/`partitions`/
`relationships`, or `toLowerCase` on a non-string table name). -/
theorem parseBimJson_missing_model_spec (json : JValue)
    (opts : Option ParseOptions) :
    (parseBimJson json opts =
        .error (.tomError "MISSING_REQUIRED_FIELD" missingModelMsg none) ↔
      (json ≠ .jnull ∧ truthyO (getProp json "model") = false)) ∧
    (truthyO (getProp json "model") = true →
      ∀ e, parseBimJson json opts = .error e → e.isTom = false) := by
  constructor
  · constructor
    · intro h
      by_cases hx : json = .jnull
      · subst hx
        simp [parseBimJson, getPropE, exbind_err] at h
      · refine ⟨hx, ?_⟩
        cases htr : truthyO (getProp json "model") with
        | false => rfl
        | true =>
          have := parseBimJson_noTom_of_truthy json opts htr _ h
          simp [JsErr.isTom] at this
    · rintro ⟨hx, htr⟩
      simp only [parseBimJson]
      rw [getPropE_of_ne_null json "model" hx, exbind_ok, htr]
      rfl
  · exact parseBimJson_noTom_of_truthy json opts

/-- Witness for C1 (amended): the minimal truthy-model document parses with
no `TomParserError` (indeed it succeeds), and a document with no `model` key
fails with `MISSING_REQUIRED_FIELD`. -/
theorem parseBimJson_missing_model_spec_witness :
    (∀ e, parseBimJson (.jobj [("model", .jobj [])]) none = .error e →
      e.isTom = false) ∧
    parseBimJson (.jobj [("tables", .jarr [])]) none =
      .error (.tomError "MISSING_REQUIRED_FIELD" missingModelMsg none) :=
  ⟨(parseBimJson_missing_model_spec (.jobj [("model", .jobj [])]) none).2 rfl,
   (parseBimJson_missing_model_spec (.jobj [("tables", .jarr [])]) none).1.mpr
     ⟨by simp, rfl⟩⟩

/-- C1 counterexample: the document `{"model": false}` *has* a `model`
property, yet `parseBimJson` fails with `MISSING_REQUIRED_FIELD` — the claim
that this failure happens iff the document lacks the property (and that
whenever the property is present the parse succeeds) is false. -/
theorem parseBimJson_present_falsy_model_cex :
    objGet [("model", JValue.jbool false)] "model" = some (.jbool false) ∧
    parseBimJson (.jobj [("model", .jbool false)]) none =
      .error (.tomError "MISSING_REQUIRED_FIELD" missingModelMsg none) :=
  ⟨rfl, rfl⟩

/-! ## C8: failure mapping of the file loader -/

/-- C8: `parseBimFile` maps failures by first match: an `ENOENT` filesystem
failure from the byte read becomes `FILE_NOT_FOUND`; a `SyntaxError` from
deserialization becomes `INVALID_JSON`; an already-classified
`TomParserError` (here: any the assembler can raise) is rethrown unchanged;
any other failure of the try-body is wrapped as `UNKNOWN`; every wrapped
error chains the original failure as its cause; and a successful body passes
through. -/
theorem parseBimFile_failure_mapping (filePath : String)
    (readResult : Except JsErr (List Nat))
    (jsonParse : DecodedText → Except JsErr JValue)
    (opts : Option ParseOptions) :
    (∀ msg, readResult = .error (.fsError "ENOENT" msg) →
      parseBimFile filePath readResult jsonParse opts =
        .error (.tomError "FILE_NOT_FOUND" ("BIM file not found: " ++ filePath)
          (some (.fsError "ENOENT" msg)))) ∧
    (∀ buf dec msg, readResult = .ok buf → detectAndDecodeBom buf = .ok dec →
      jsonParse dec = .error (.syntaxError msg) →
      parseBimFile filePath readResult jsonParse opts =
        .error (.tomError "INVALID_JSON" ("Invalid JSON in BIM file: " ++ msg)
          (some (.syntaxError msg)))) ∧
    (∀ buf dec jv c m cz, readResult = .ok buf →
      detectAndDecodeBom buf = .ok dec → jsonParse dec = .ok jv →
      parseBimJson jv opts = .error (.tomError c m cz) →
      parseBimFile filePath readResult jsonParse opts =
        .error (.tomError c m cz)) ∧
    (∀ e, parseBimFileBody readResult jsonParse opts = .error e →
      e.isTom = false → e.code? ≠ some "ENOENT" → e.isSyntax = false →
      parseBimFile filePath readResult jsonParse opts =
        .error (.tomError "UNKNOWN" ("Error parsing BIM file: " ++ e.message)
          (some e))) ∧
    (∀ m, parseBimFileBody readResult jsonParse opts = .ok m →
      parseBimFile filePath readResult jsonParse opts = .ok m) := by
  refine ⟨?_, ?_, ?_, ?_, ?_⟩
  · rintro msg rfl
    simp [parseBimFile, parseBimFileBody, parseBimFileCatch, exbind_err,
      JsErr.isTom, JsErr.code?, JsErr.isSyntax]
  · rintro buf dec msg rfl hdec hjp
    simp [parseBimFile, parseBimFileBody, parseBimFileCatch, exbind_ok,
      exbind_err, hdec, hjp, JsErr.isTom, JsErr.code?, JsErr.isSyntax,
      JsErr.message]
  · rintro buf dec jv c m cz rfl hdec hjp hpj
    simp [parseBimFile, parseBimFileBody, parseBimFileCatch, exbind_ok,
      hdec, hjp, hpj, JsErr.isTom]
  · intro e hbody htom hcode hsyn
    unfold parseBimFile
    rw [hbody]
    show Except.error (parseBimFileCatch filePath e) = _
    unfold parseBimFileCatch
    rw [if_neg (by simp [htom]), if_neg hcode, if_neg (by simp [hsyn])]
  · intro m hbody
    unfold parseBimFile
    rw [hbody]

/-- Witness for C8: with a missing file the loader returns `FILE_NOT_FOUND`
chaining the filesystem error, and with well-formed collaborators returning
`{"model":{}}` it succeeds. -/
theorem parseBimFile_failure_mapping_witness :
    parseBimFile "model.bim" (.error (.fsError "ENOENT" "no such file"))
      (fun _ => .ok (.jobj [("model", .jobj [])])) none =
      .error (.tomError "FILE_NOT_FOUND" ("BIM file not found: " ++ "model.bim")
        (some (.fsError "ENOENT" "no such file"))) :=
  (parseBimFile_failure_mapping "model.bim"
    (.error (.fsError "ENOENT" "no such file"))
    (fun _ => .ok (.jobj [("model", .jobj [])])) none).1 "no such file" rfl
